import Mathlib

/-!
Verification of the Maximo automation tool (`Maximo_Automation_Tool_01.py`)
against its natural-language specification.

The Python program drives a Maximo web UI through Playwright, once per
spreadsheet sheet: add service lines to a work order, route it to COMP,
create a customer bill, and synchronize bill prices, checkpointing results
back into the spreadsheet.  The definitions below are a shallow embedding of
the control flow and pure computations of the relevant functions; browser
interactions are modelled by oracles (which stage raises, what a page
observation contains) while the decision logic is translated line by line
from the source.
-/

namespace Maximo

/-! ## String helpers

Python's `in` operator on strings is substring containment, and `.strip()`
is whitespace trimming (`pyStrip` below); substring
containment is defined here on character lists. -/

/-- Checks whether the first list is a prefix of the second (executable). -/
def isPrefixChars : List Char → List Char → Bool
  | [], _ => true
  | _ :: _, [] => false
  | a :: as, b :: bs => a == b && isPrefixChars as bs

/-- Checks whether the first list occurs as a contiguous sublist of the
second (executable). -/
def isInfixChars (needle : List Char) : List Char → Bool
  | [] => isPrefixChars needle []
  | b :: bs => isPrefixChars needle (b :: bs) || isInfixChars needle bs

/-- Python's `needle in hay` substring test. -/
def strContains (hay needle : String) : Bool :=
  isInfixChars needle.data hay.data

/-- Python's `.strip()`: drop leading and trailing whitespace (modelled on
the character list so it evaluates by kernel reduction). -/
def pyStrip (s : String) : String :=
  String.mk (((s.data.dropWhile Char.isWhitespace).reverse.dropWhile
    Char.isWhitespace).reverse)

/-- Python's `.lower()` (modelled on the character list so it evaluates by
kernel reduction). -/
def pyLower (s : String) : String :=
  String.mk (s.data.map Char.toLower)

/-! ## AddServices: service-line iteration (`add_services_to_wo`, lines 1095–1161)

One row of the per-sheet services table, as produced by the sheet parser in
`run_automation` (Service Item / Description / Quantity / Unit Price /
Total Price columns).  A quantity of `none` models a missing or NaN cell
(`pd.isna`). -/
structure ServiceRow where
  serviceItem : String
  quantity : Option ℚ
  deriving DecidableEq, Repr

/-- The skip test of `add_services_to_wo` (lines 1129–1135): a row is
skipped when `quantity == 0 or pd.isna(quantity)`, or when the service item
is empty or whitespace-only. -/
def lineSkippedZeroQty (r : ServiceRow) : Bool :=
  r.quantity == some 0 || r.quantity == none

/-- The second skip test of `add_services_to_wo` (line 1133): empty or
blank service item. -/
def lineSkippedEmptyItem (r : ServiceRow) : Bool :=
  pyStrip r.serviceItem == ""

/-- A row is eligible when neither skip test fires. -/
def lineEligible (r : ServiceRow) : Bool :=
  !lineSkippedZeroQty r && !lineSkippedEmptyItem r

/-- Observable events of the `add_services_to_wo` loop.  `submitted` records
an invocation of `add_single_service`; its `ok` field is that call's return
value (`True` on success, `False` after the retry budgets are exhausted —
`add_single_service` catches every exception at line 1639 and returns
`False`, it never raises). -/
inductive AddSvcEvent
  | skippedZeroQty (item : String)
  | skippedEmptyItem (item : String)
  | submitted (item : String) (ok : Bool)
  deriving DecidableEq, Repr

/-- The service-line loop of `add_services_to_wo` (lines 1120–1152), with
the outcome of each `add_single_service` call supplied by the oracle
`fails` (`fails r = true` means the call returns `False` after exhausting
its internal retry budgets).  The loop body checks quantity first, then the
item code, then calls `add_single_service` and ignores its return value,
continuing with the next row. -/
def add_services_to_wo (fails : ServiceRow → Bool) : List ServiceRow → List AddSvcEvent
  | [] => []
  | r :: rs =>
    if lineSkippedZeroQty r then
      .skippedZeroQty r.serviceItem :: add_services_to_wo fails rs
    else if lineSkippedEmptyItem r then
      .skippedEmptyItem r.serviceItem :: add_services_to_wo fails rs
    else
      .submitted r.serviceItem (!fails r) :: add_services_to_wo fails rs

/-- The `add_single_service` invocations recorded in a trace. -/
def submittedEvents (evs : List AddSvcEvent) : List AddSvcEvent :=
  evs.filter fun e => match e with
    | .submitted _ _ => true
    | _ => false

/-- The item codes of the `add_single_service` invocations in a trace. -/
def submittedItems (evs : List AddSvcEvent) : List String :=
  evs.filterMap fun e => match e with
    | .submitted item _ => some item
    | _ => none

/-! ## The per-sheet step pipeline (`run_automation`, lines 2412–2449)

`run_automation` computes the dispatched step list from the canonical step
names, the configured start step and the selected-steps set, then runs the
steps in order for each sheet.  The browser outcome of each stage function
is supplied by an oracle telling which stages raise a stage-fatal
exception. -/

/-- The canonical step-name list (line 2413). -/
def canonical : List String :=
  ["add_services", "route_to_comp", "create_bill", "put_prices"]

/-- The start index (lines 2414–2417): `canonical.index(start_at)`, with a
`ValueError` (name not present) mapped to 0. -/
def startIdx (start_at : String) : Nat :=
  (canonical.findIdx? (fun s => s == start_at)).getD 0

/-- The dispatched step list (line 2418):
`[s for s in canonical[start_idx:] if s in selected_steps]`. -/
def orderedSteps (start_at : String) (selected : List String) : List String :=
  (canonical.drop (startIdx start_at)).filter (fun s => selected.contains s)

/-- Observable events of one run: work-order search (line 2422), entry into
a stage function, a stage-fatal exception raised by a stage function,
the Excel write-back `update_excel_file` (line 2449), completion of a
sheet (line 2454), and the top-level `except` handler of `run_automation`
(line 2459). -/
inductive RunEvent
  | searchWO (wo : String)
  | stageRun (stage : String)
  | stageError (stage : String)
  | checkpoint (wo : String)
  | sheetDone (wo : String)
  | runError
  deriving DecidableEq, Repr

/-- Execution of one dispatched step (lines 2423–2447).  `raises s = true`
means the stage function for `s` raises a stage-fatal exception.  The
`add_services` dispatch is special: `add_services_to_wo` itself calls
`route_wo_to_comp` after its service-line loop (line 1158) whenever the
sheet has service data (`svcNonEmpty`), and a raise from that call
propagates out of `add_services_to_wo` (line 1161).  The returned flag
reports whether an exception escaped the step. -/
def execStage (raises : String → Bool) (svcNonEmpty : Bool) (stage : String) :
    List RunEvent × Bool :=
  if stage == "add_services" then
    if raises "add_services" then
      ([.stageRun "add_services", .stageError "add_services"], true)
    else if svcNonEmpty then
      if raises "route_to_comp" then
        ([.stageRun "add_services", .stageRun "route_to_comp",
          .stageError "route_to_comp"], true)
      else ([.stageRun "add_services", .stageRun "route_to_comp"], false)
    else ([.stageRun "add_services"], false)
  else if raises stage then ([.stageRun stage, .stageError stage], true)
  else ([.stageRun stage], false)

/-- The `for step in ordered` loop (lines 2423–2447).  There is no
`try/except` around the step dispatch: the first exception escaping a step
aborts the loop and propagates. -/
def runSteps (raises : String → Bool) (svcNonEmpty : Bool) :
    List String → List RunEvent × Bool
  | [] => ([], false)
  | s :: rest =>
    match execStage raises svcNonEmpty s with
    | (evs, true) => (evs, true)
    | (evs, false) =>
      let r := runSteps raises svcNonEmpty rest
      (evs ++ r.1, r.2)

/-- Processing of one sheet (lines 2420–2455): search the work order, run
the dispatched steps, and — only when no exception escaped — call
`update_excel_file` (line 2449) and finish the sheet.  An escaped
exception propagates to the caller. -/
def runSheet (raises : String → Bool) (svcNonEmpty : Bool) (wo : String)
    (steps : List String) : List RunEvent × Bool :=
  if (runSteps raises svcNonEmpty steps).2 then
    (.searchWO wo :: (runSteps raises svcNonEmpty steps).1, true)
  else
    (.searchWO wo :: ((runSteps raises svcNonEmpty steps).1
      ++ [.checkpoint wo, .sheetDone wo]), false)

/-- One sheet of the batch together with its stage-failure behaviour:
`failingStages` lists the stages whose stage function raises on this
sheet. -/
structure SheetJob where
  wo : String
  svcNonEmpty : Bool
  failingStages : List String
  deriving DecidableEq, Repr

/-- The stage-failure oracle of a sheet. -/
def jobRaises (j : SheetJob) : String → Bool :=
  fun s => j.failingStages.contains s

/-- The sheet loop of `run_automation` (lines 2335–2455), without stop
requests.  The loop body is not wrapped in `try/except`: an exception
escaping a sheet's step pipeline propagates to the top-level `except`
handler of `run_automation` (line 2459), which logs the error and ends the
run (the `finally` block then releases the browser). -/
def runBatch (steps : List String) : List SheetJob → List RunEvent
  | [] => []
  | j :: rest =>
    if (runSheet (jobRaises j) j.svcNonEmpty j.wo steps).2 then
      (runSheet (jobRaises j) j.svcNonEmpty j.wo steps).1 ++ [.runError]
    else
      (runSheet (jobRaises j) j.svcNonEmpty j.wo steps).1 ++ runBatch steps rest

/-- The stage functions entered during a trace, in order. -/
def executedStagesOf (evs : List RunEvent) : List String :=
  evs.filterMap fun e => match e with
    | .stageRun s => some s
    | _ => none

/-! ## Login (`verify_login_success` lines 673–709, `perform_login` lines 774–901) -/

/-- One read of the page during login verification: current URL and body
text. -/
structure PageObs where
  url : String
  body : String
  deriving DecidableEq, Repr

/-- The authenticated-session markers of `verify_login_success`
(line 676). -/
def success_indicators : List String :=
  ["Welcome", "Logout", "Sign Out", "Main Menu"]

/-- One verification attempt of `verify_login_success` (lines 678–695):
success when the URL no longer contains `login` (case-insensitive), or the
body text contains one of the markers. -/
def loginObsOk (o : PageObs) : Bool :=
  !strContains (pyLower o.url) "login"
    || success_indicators.any (fun t => strContains o.body t)

/-- `verify_login_success` with its fixed `max_attempts = 2` (line 674),
reading the page once per attempt. -/
def verify_login_success (o1 o2 : PageObs) : Bool :=
  loginObsOk o1 || loginObsOk o2

/-- The observations available to one iteration of the login-attempt loop
of `perform_login`: the two page reads of its `verify_login_success` call,
whether the configured base URL occurs in the page URL (line 887), and the
text of the first `.error, .validation, .message` element (empty when
absent, lines 888–892). -/
structure LoginAttemptObs where
  obs1 : PageObs
  obs2 : PageObs
  urlHasBase : Bool
  errorText : String
  deriving DecidableEq, Repr

/-- How `perform_login` can finish: return after successful verification
(line 886), raise a login-failure exception when a visible error message is
found (line 894), or fall off the end of the attempt loop and return
without signalling anything (the loop at lines 775–898 has no `else` after
its last attempt). -/
inductive LoginOutcome
  | success
  | raised (msg : String)
  | fellThrough
  deriving DecidableEq, Repr

/-- One iteration of the login-attempt loop (lines 775–898): verify; on
success return; otherwise raise when an error message is visible at the
base URL; otherwise continue with the next attempt. -/
def loginAttemptStep (a : LoginAttemptObs) (k : LoginOutcome) : LoginOutcome :=
  if verify_login_success a.obs1 a.obs2 then .success
  else if a.urlHasBase && a.errorText != "" then .raised a.errorText
  else k

/-- `perform_login` with its fixed `max_login_attempts = 3` (line 774). -/
def perform_login (a1 a2 a3 : LoginAttemptObs) : LoginOutcome :=
  loginAttemptStep a1 (loginAttemptStep a2 (loginAttemptStep a3 .fellThrough))

/-- What `run_automation` does after `perform_login` (lines 2322–2455): an
exception raised by `perform_login` propagates to the top-level `except`
handler, so no sheet is processed; a normal return — whether verification
succeeded or the attempt loop merely ended — is followed by the sheet
loop. -/
def run_automation_after_login (out : LoginOutcome) (steps : List String)
    (jobs : List SheetJob) : List RunEvent :=
  match out with
  | .raised _ => [.runError]
  | _ => runBatch steps jobs

/-! ## Bill naming (`create_customer_bill`, lines 1951–1968) -/

/-- `strftime("%b").upper()` for the twelve months (line 1952). -/
def monthAbbrevUpper (m : Fin 12) : String :=
  ["JAN", "FEB", "MAR", "APR", "MAY", "JUN",
   "JUL", "AUG", "SEP", "OCT", "NOV", "DEC"].get (Fin.cast (by decide) m)

/-- The placeholder test of line 1959: the live description contains
`To be stored` or its Arabic equivalent. -/
def descriptionIsPlaceholder (d : String) : Bool :=
  strContains d "To be stored" || strContains d "سيتم التخزين"

/-- The description-fallback chain (lines 1958–1963): use the live
`wo_description` unless it is missing, blank, or a placeholder; then the
originally-ingested Excel description unless missing or empty; then
`WO-{wo_number}`. -/
def description_for_bill (wo_description excel_original_description : Option String)
    (wo_number : String) : String :=
  let fallback :=
    match excel_original_description with
    | some e => if e == "" then "WO-" ++ wo_number else e
    | none => "WO-" ++ wo_number
  match wo_description with
  | none => fallback
  | some d =>
    if pyStrip d == "" || descriptionIsPlaceholder d then fallback else d

/-- The bill name of line 1965:
`{description}-{wo_number}-M{month_abbr}{year_short}`. -/
def bill_name (wo_description excel_original_description : Option String)
    (wo_number : String) (month : Fin 12) (yearShort : String) : String :=
  description_for_bill wo_description excel_original_description wo_number
    ++ "-" ++ wo_number ++ "-M" ++ monthAbbrevUpper month ++ yearShort

/-! ## Price synchronisation (`enter_services_prices`, lines 463–589)

The scripted page query (lines 488–500) extracts `(serviceCode, inputId)`
pairs and filters out rows where either is missing, so every extracted row
carries both. -/

/-- One extracted service row of a results page. -/
structure PriceRow where
  serviceCode : String
  inputId : String
  deriving DecidableEq, Repr

/-- One price-field write performed by the loop: the scripted set-value
sequence for a mapped price (lines 523–540, dispatching change, blur,
input and keyup, and returning the re-read comparison), or the zero-price
write for an unmapped code (lines 548–555, dispatching change, input and
blur, with no re-read). -/
structure PriceWriteEv where
  serviceCode : String
  inputId : String
  value : String
  domEvents : List String
  checkedByReread : Bool
  deriving DecidableEq, Repr

/-- The mutable state of one `enter_services_prices` invocation: the
running `processed_services` set (line 474), the write log, and the
current value of each price input (by input id). -/
structure SvcPriceState where
  processed : List String
  writes : List PriceWriteEv
  fields : List (String × String)
  deriving DecidableEq, Repr

/-- Sets the value of one field in the page-state association list. -/
def assocSet : List (String × String) → String → String → List (String × String)
  | [], k, v => [(k, v)]
  | (k0, v0) :: rest, k, v =>
    if k0 == k then (k0, v) :: rest else (k0, v0) :: assocSet rest k v

/-- The DOM events dispatched by the mapped-price write (lines 527–533). -/
def mappedWriteEvents : List String := ["change", "blur", "input", "keyup"]

/-- The DOM events dispatched by the zero-price write (lines 551–553). -/
def zeroWriteEvents : List String := ["change", "input", "blur"]

/-- The body of the per-row loop (lines 509–560): skip a falsy or
already-processed code; otherwise write the mapped price (verified by the
scripted re-read) when the code is in the Excel map, else force the field
to `0.00`; finally add the code to the processed set. -/
def processServiceRow (excelMap : List (String × String)) (st : SvcPriceState)
    (r : PriceRow) : SvcPriceState :=
  if r.serviceCode == "" || st.processed.contains r.serviceCode then st
  else
    match excelMap.lookup r.serviceCode with
    | some v =>
      { processed := st.processed ++ [r.serviceCode]
        writes := st.writes ++ [⟨r.serviceCode, r.inputId, v, mappedWriteEvents, true⟩]
        fields := assocSet st.fields r.inputId v }
    | none =>
      { processed := st.processed ++ [r.serviceCode]
        writes := st.writes ++ [⟨r.serviceCode, r.inputId, "0.00", zeroWriteEvents, false⟩]
        fields := assocSet st.fields r.inputId "0.00" }

/-- The pagination loop (lines 486–577): process the rows of each visited
results page in order; a page with no extracted rows stops the loop
(line 502). -/
def enter_services_prices (excelMap : List (String × String)) :
    List (List PriceRow) → SvcPriceState → SvcPriceState
  | [], st => st
  | rows :: more, st =>
    if rows.isEmpty then st
    else enter_services_prices excelMap more (rows.foldl (processServiceRow excelMap) st)

/-- The empty starting state of one invocation. -/
def initPriceState : SvcPriceState := ⟨[], [], []⟩

/-- What the loop body guarantees about a single recorded write: a code
present in the Excel map got the mapped price via the event-dispatching
scripted write and was verified by re-read; an absent code got the forced
`0.00` write. -/
def GoodWrite (m : List (String × String)) (w : PriceWriteEv) : Prop :=
  match m.lookup w.serviceCode with
  | some v => w.value = v ∧ w.domEvents = mappedWriteEvents ∧ w.checkedByReread = true
  | none => w.value = "0.00" ∧ w.domEvents = zeroWriteEvents ∧ w.checkedByReread = false

/-- The loop invariant of `enter_services_prices`: every recorded write is
as the source prescribes, every processed code has a write, no code is
written twice, and written codes are in the processed set. -/
def PriceInv (m : List (String × String)) (st : SvcPriceState) : Prop :=
  (∀ w ∈ st.writes, GoodWrite m w)
  ∧ (∀ c ∈ st.processed, ∃ w ∈ st.writes, w.serviceCode = c)
  ∧ (st.writes.map (fun w => w.serviceCode)).Nodup
  ∧ (∀ w ∈ st.writes, w.serviceCode ∈ st.processed)

/-! ## Pause wiring (`check_pause` lines 410–416, `run_automation` line 2299)

`StreamlitAutomation.check_pause` consults `self.paused`, the boolean the
worker received at construction.  `run_automation` constructs the worker
with the constant `paused=False` (line 2299); the operator's pause toggle
(`on_pause`, line 2507) flips `st.session_state["paused"]`, which the
worker never reads, and no code ever assigns `self.paused` afterwards. -/

/-- The `paused` argument `run_automation` passes at line 2299. -/
def run_automation_paused_arg : Bool := false

/-- `check_pause`: the worker blocks in `wait_if_paused` exactly when its
own `paused` field is set. -/
def check_pause (paused : Bool) : Bool := paused

/-- Events of the AddServices iteration under pause: a halt (the worker
blocking in `wait_if_paused` before the line's browser work) or the
processing of a line. -/
inductive PauseEvent
  | halted (line : Nat)
  | processedLine (line : Nat)
  deriving DecidableEq, Repr

/-- The AddServices service-line iteration as run by `run_automation`,
under an operator pause schedule: `uiPause i` tells whether the operator
had requested pause before line `i`.  The worker consults `check_pause` on
its own `paused` field, which `run_automation` fixed to the constant
`False`; the schedule is never read by the worker. -/
def addServicesPauseTrace (uiPause : Nat → Bool) (n : Nat) : List PauseEvent :=
  (List.range n).flatMap fun i =>
    (if check_pause run_automation_paused_arg then [PauseEvent.halted i] else [])
      ++ [PauseEvent.processedLine i]

/-! ## Excel checkpoint (`update_excel_file`, lines 436–449) -/

/-- Ingestion of the bill status from the sheet (line 2357):
`str(cell).strip()` when the cell is not NaN, else `None`. -/
def ingest_bill_status (cell : Option String) : Option String :=
  cell.map pyStrip

/-- The value `update_excel_file` writes into cell B5 (lines 442–445): the
job's `bill_status` when set and truthy (non-empty), else the literal
`CREATED`. -/
def update_excel_file_B5 (bill_status : Option String) : String :=
  match bill_status with
  | some s => if s == "" then "CREATED" else s
  | none => "CREATED"

/-! ## Concrete inputs used by counterexamples and witnesses -/

/-- An eligible service line whose `add_single_service` call fails. -/
def lineA : ServiceRow := ⟨"IS001", some 1⟩

/-- An eligible service line processed after `lineA`. -/
def lineB : ServiceRow := ⟨"IS002", some 2⟩

/-- A failure oracle making exactly `lineA` exhaust its retry budgets. -/
def failsOnA : ServiceRow → Bool := fun r => r.serviceItem == "IS001"

/-- A sheet whose AddServices stage raises. -/
def jobFail : SheetJob := ⟨"WO1", true, ["add_services"]⟩

/-- A sheet on which every stage succeeds. -/
def jobOk : SheetJob := ⟨"WO2", true, []⟩

/-- A stage-failure oracle on which no stage raises. -/
def noFail : String → Bool := fun _ => false

/-- A page read still on the login page with no marker in the body. -/
def badObs : PageObs :=
  ⟨"https://maximo.example.com/maximo/webclient/login", "Invalid credentials"⟩

/-- A login attempt whose verification fails and which finds no visible
error message. -/
def badAttempt : LoginAttemptObs := ⟨badObs, badObs, true, ""⟩

/-- A login attempt whose verification fails and which finds a visible
error message at the base URL. -/
def errAttempt : LoginAttemptObs := ⟨badObs, badObs, true, "Login failed"⟩

/-- An Excel price map holding one service code. -/
def priceMap0 : List (String × String) := [("IS10", "150.0")]

/-- An extracted row whose code is in `priceMap0`. -/
def priceRow1 : PriceRow := ⟨"IS10", "in1"⟩

/-- An extracted row whose code is absent from `priceMap0`. -/
def priceRow2 : PriceRow := ⟨"IS20", "in2"⟩

/-- A single results page holding both rows. -/
def pricePages0 : List (List PriceRow) := [[priceRow1, priceRow2]]

/-- A price-loop state that has already processed `IS10`. -/
def dupState : SvcPriceState := ⟨["IS10"], [], []⟩

/-- Key structural lemma: the submitted events of the loop are exactly the
eligible rows, in order, each paired with its oracle outcome — skipped rows
produce no submission and ineligible rows never reach
`add_single_service`. -/
theorem add_services_submitted_eq (fails : ServiceRow → Bool) (rows : List ServiceRow) :
    submittedEvents (add_services_to_wo fails rows)
      = (rows.filter lineEligible).map (fun r => .submitted r.serviceItem (!fails r)) := by
  induction rows with
  | nil => rfl
  | cons r rs ih =>
    by_cases hz : lineSkippedZeroQty r
    · simp [add_services_to_wo, hz, submittedEvents, List.filter, lineEligible] at *
      simpa [submittedEvents] using ih
    · by_cases he : lineSkippedEmptyItem r
      · simp [add_services_to_wo, hz, he, submittedEvents, List.filter, lineEligible] at *
        simpa [submittedEvents] using ih
      · simp [add_services_to_wo, hz, he, submittedEvents, List.filter, lineEligible] at *
        simpa [submittedEvents] using ih

/-- Companion lemma: every service row yields exactly one trace event, so
each row is either logged as skipped or handed to `add_single_service`. -/
theorem add_services_trace_length (fails : ServiceRow → Bool) (rows : List ServiceRow) :
    (add_services_to_wo fails rows).length = rows.length := by
  induction rows with
  | nil => rfl
  | cons r rs ih =>
    by_cases hz : lineSkippedZeroQty r
    · simp [add_services_to_wo, hz, ih]
    · by_cases he : lineSkippedEmptyItem r
      · simp [add_services_to_wo, hz, he, ih]
      · simp [add_services_to_wo, hz, he, ih]

/-- Companion lemma: the item codes handed to `add_single_service` are
exactly the eligible rows' codes, in order, for every failure oracle. -/
theorem submittedItems_eq (fails : ServiceRow → Bool) (rows : List ServiceRow) :
    submittedItems (add_services_to_wo fails rows)
      = (rows.filter lineEligible).map (fun r => r.serviceItem) := by
  induction rows with
  | nil => rfl
  | cons r rs ih =>
    by_cases hz : lineSkippedZeroQty r
    · simp [add_services_to_wo, hz, submittedItems, lineEligible, List.filter] at *
      simpa [submittedItems] using ih
    · by_cases he : lineSkippedEmptyItem r
      · simp [add_services_to_wo, hz, he, submittedItems, lineEligible, List.filter] at *
        simpa [submittedItems] using ih
      · simp [add_services_to_wo, hz, he, submittedItems, lineEligible, List.filter] at *
        simpa [submittedItems] using ih

/-- C4: a service line whose quantity is 0 or missing/NaN, or whose item
code is empty or blank, is never handed to `add_single_service` — the
`add_single_service` invocations of the loop are exactly the eligible
rows, in order — while every row (skipped or not) produces exactly one
trace event, so skipped lines are logged and all other lines of the job
are still processed. -/
theorem C4_skipped_lines_never_submitted (fails : ServiceRow → Bool) (rows : List ServiceRow) :
    submittedEvents (add_services_to_wo fails rows)
      = (rows.filter lineEligible).map (fun r => AddSvcEvent.submitted r.serviceItem (!fails r))
    ∧ (add_services_to_wo fails rows).length = rows.length :=
  ⟨add_services_submitted_eq fails rows, add_services_trace_length fails rows⟩

/-- C5 counterexample: `lineA` is eligible and its `add_single_service`
call fails after its retry budgets (`ok = false` in the trace, because
`add_single_service` catches every exception at line 1639 and returns
`False` instead of raising), yet the loop still submits the following line
`lineB` — refuting the claim that a failing line aborts the AddServices
stage so that the remaining service lines are not processed. -/
theorem C5_counterexample_failing_line_does_not_abort_stage :
    failsOnA lineA = true ∧ lineEligible lineA = true ∧ lineEligible lineB = true
    ∧ add_services_to_wo failsOnA [lineA, lineB]
        = [.submitted "IS001" false, .submitted "IS002" true] := by
  decide

/-- C5 corrected: an eligible line that fails after the local retry
budgets inside `add_single_service` is logged (the call returns `False`,
line 1641) and the AddServices loop simply continues: the item codes
submitted are all eligible codes of the job, independent of which lines
fail, so neither the stage nor the run is aborted by a line failure. -/
theorem C5_amended_failing_line_logged_loop_continues
    (fails : ServiceRow → Bool) (rows : List ServiceRow) :
    submittedItems (add_services_to_wo fails rows)
      = (rows.filter lineEligible).map (fun r => r.serviceItem) :=
  submittedItems_eq fails rows

/-- C2 counterexample: with start-at `add_services` and selected set
`{add_services}` the dispatched list is `[add_services]`, but on a sheet
with service data the stages actually executed are
`[add_services, route_to_comp]`, because `add_services_to_wo` itself calls
`route_wo_to_comp` (line 1158) — refuting the claim that no stage outside
the truncated-and-filtered canonical sequence is executed. -/
theorem C2_counterexample_route_runs_unselected :
    orderedSteps "add_services" ["add_services"] = ["add_services"]
    ∧ executedStagesOf
        (runSheet noFail true "WO1" (orderedSteps "add_services" ["add_services"])).1
        = ["add_services", "route_to_comp"] := by
  decide

/-- Equation lemma: the stage list of an empty trace. -/
theorem executedStagesOf_nil : executedStagesOf [] = [] := rfl

/-- Equation lemma: a `stageRun` event contributes its stage. -/
theorem executedStagesOf_stageRun (s : String) (evs : List RunEvent) :
    executedStagesOf (RunEvent.stageRun s :: evs) = s :: executedStagesOf evs := rfl

/-- Equation lemma: a `stageError` event contributes nothing. -/
theorem executedStagesOf_stageError (s : String) (evs : List RunEvent) :
    executedStagesOf (RunEvent.stageError s :: evs) = executedStagesOf evs := rfl

/-- Equation lemma: a `searchWO` event contributes nothing. -/
theorem executedStagesOf_searchWO (wo : String) (evs : List RunEvent) :
    executedStagesOf (RunEvent.searchWO wo :: evs) = executedStagesOf evs := rfl

/-- Equation lemma: a `checkpoint` event contributes nothing. -/
theorem executedStagesOf_checkpoint (wo : String) (evs : List RunEvent) :
    executedStagesOf (RunEvent.checkpoint wo :: evs) = executedStagesOf evs := rfl

/-- Equation lemma: a `sheetDone` event contributes nothing. -/
theorem executedStagesOf_sheetDone (wo : String) (evs : List RunEvent) :
    executedStagesOf (RunEvent.sheetDone wo :: evs) = executedStagesOf evs := rfl

/-- Equation lemma: the stage list distributes over trace concatenation. -/
theorem executedStagesOf_append (l1 l2 : List RunEvent) :
    executedStagesOf (l1 ++ l2) = executedStagesOf l1 ++ executedStagesOf l2 := by
  simp [executedStagesOf]

/-- Companion lemma: with no stage failure, the step loop raises nothing
and the stages entered are the dispatched steps, except that the
`add_services` dispatch also enters `route_to_comp` when the sheet has
service data. -/
theorem runSteps_noFail (b : Bool) (steps : List String) :
    (runSteps noFail b steps).2 = false
    ∧ executedStagesOf (runSteps noFail b steps).1
        = steps.flatMap (fun s =>
            if s == "add_services" && b then ["add_services", "route_to_comp"] else [s]) := by
  induction steps with
  | nil => exact ⟨rfl, rfl⟩
  | cons s rest ih =>
    by_cases hs : s = "add_services"
    · subst hs
      cases b with
      | false =>
        refine ⟨?_, ?_⟩ <;>
          simp [runSteps, execStage, noFail, ih.1, ih.2, executedStagesOf_append,
            executedStagesOf_stageRun, executedStagesOf_stageError, executedStagesOf_nil]
      | true =>
        refine ⟨?_, ?_⟩ <;>
          simp [runSteps, execStage, noFail, ih.1, ih.2, executedStagesOf_append,
            executedStagesOf_stageRun, executedStagesOf_stageError, executedStagesOf_nil]
    · have hs2 : (s == "add_services") = false := by
        simpa using hs
      refine ⟨?_, ?_⟩ <;>
        simp [runSteps, execStage, noFail, hs2, hs, ih.1, ih.2, executedStagesOf_append,
          executedStagesOf_stageRun, executedStagesOf_stageError, executedStagesOf_nil]

/-- C2 corrected: the dispatched step list equals the canonical sequence
truncated at the start-at step and filtered by the selected set, and (with
no stage failure) the stages actually entered are exactly those dispatched
steps except that the `add_services` dispatch additionally enters
`route_to_comp` whenever the sheet has service data — so `route_to_comp`
can run without being selected, and runs twice when both are selected. -/
theorem C2_amended_effective_steps (start_at : String) (selected : List String)
    (b : Bool) (wo : String) :
    orderedSteps start_at selected
      = (canonical.drop (startIdx start_at)).filter (fun s => selected.contains s)
    ∧ executedStagesOf (runSheet noFail b wo (orderedSteps start_at selected)).1
        = (orderedSteps start_at selected).flatMap (fun s =>
            if s == "add_services" && b then ["add_services", "route_to_comp"] else [s]) := by
  refine ⟨rfl, ?_⟩
  have h := runSteps_noFail b (orderedSteps start_at selected)
  simp [runSheet, h.1, h.2, executedStagesOf_append, executedStagesOf_searchWO,
    executedStagesOf_checkpoint, executedStagesOf_sheetDone, executedStagesOf_nil]

/-- Helper: `execStage` never emits a checkpoint event — only
`update_excel_file` after the step loop does. -/
theorem checkpoint_not_in_execStage (raises : String → Bool) (b : Bool)
    (s wo : String) : RunEvent.checkpoint wo ∉ (execStage raises b s).1 := by
  unfold execStage
  split_ifs <;> simp

/-- Helper: the step loop never emits a checkpoint event. -/
theorem checkpoint_not_in_runSteps (raises : String → Bool) (b : Bool)
    (wo : String) : ∀ steps : List String,
    RunEvent.checkpoint wo ∉ (runSteps raises b steps).1
  | [] => by simp [runSteps]
  | s :: rest => by
    have h1 := checkpoint_not_in_execStage raises b s wo
    have ih := checkpoint_not_in_runSteps raises b wo rest
    unfold runSteps
    rcases hE : execStage raises b s with ⟨evs, flag⟩
    rw [hE] at h1
    cases flag <;> simp_all

/-- Helper: a sheet whose step pipeline raised was never checkpointed. -/
theorem checkpoint_not_in_failed_runSheet (raises : String → Bool) (b : Bool)
    (wo2 : String) (steps : List String) (wo : String)
    (h : (runSheet raises b wo2 steps).2 = true) :
    RunEvent.checkpoint wo ∉ (runSheet raises b wo2 steps).1 := by
  have h1 := checkpoint_not_in_runSteps raises b wo steps
  unfold runSheet at h ⊢
  by_cases hR : (runSteps raises b steps).2 = true
  · rw [if_pos hR]
    simp [h1]
  · rw [if_neg hR] at h
    simp at h

/-- C1 counterexample: on a two-sheet batch whose first sheet raises in
AddServices, the whole run ends at the top-level handler: the first sheet
is never checkpointed via `update_excel_file` and the second sheet is
never processed — refuting the claim that a stage error is recovered at
the Job granularity. -/
theorem C1_counterexample_stage_error_ends_run :
    runBatch canonical [jobFail, jobOk]
      = [.searchWO "WO1", .stageRun "add_services", .stageError "add_services", .runError]
    ∧ RunEvent.checkpoint "WO1" ∉ runBatch canonical [jobFail, jobOk]
    ∧ RunEvent.searchWO "WO2" ∉ runBatch canonical [jobFail, jobOk] := by
  decide

/-- C1 corrected: a stage-fatal error on a sheet propagates out of the
sheet loop (which has no per-sheet `try/except`) to `run_automation`'s
top-level handler: the run's trace is that sheet's partial trace followed
by the run-level error, the failed sheet is never checkpointed via
`update_excel_file`, and no remaining sheet of the batch is processed. -/
theorem C1_amended_stage_error_aborts_whole_run (steps : List String)
    (j : SheetJob) (rest : List SheetJob)
    (h : (runSheet (jobRaises j) j.svcNonEmpty j.wo steps).2 = true) :
    runBatch steps (j :: rest)
      = (runSheet (jobRaises j) j.svcNonEmpty j.wo steps).1 ++ [RunEvent.runError]
    ∧ ∀ wo, RunEvent.checkpoint wo ∉ runBatch steps (j :: rest) := by
  have hEq : runBatch steps (j :: rest)
      = (runSheet (jobRaises j) j.svcNonEmpty j.wo steps).1 ++ [RunEvent.runError] := by
    simp [runBatch, h]
  refine ⟨hEq, fun wo => ?_⟩
  rw [hEq]
  have h2 := checkpoint_not_in_failed_runSheet (jobRaises j) j.svcNonEmpty j.wo steps wo h
  simp [h2]

/-- Witness for the corrected C1 theorem on a concrete failing sheet. -/
theorem C1_amended_stage_error_aborts_whole_run_witness :
    (runSheet (jobRaises jobFail) jobFail.svcNonEmpty jobFail.wo canonical).2 = true
    ∧ runBatch canonical [jobFail, jobOk]
        = (runSheet (jobRaises jobFail) jobFail.svcNonEmpty jobFail.wo canonical).1
            ++ [RunEvent.runError] :=
  ⟨by decide, (C1_amended_stage_error_aborts_whole_run canonical jobFail [jobOk] (by decide)).1⟩

/-- C3 counterexample: on a page that stays on the login URL with no
authenticated-session marker in the body, `verify_login_success` fails on
every read, and all three attempts of `perform_login` fail without finding
a visible error message — yet `perform_login` merely falls off the end of
its attempt loop (lines 775–898 raise nothing on the last attempt), so
`run_automation` proceeds to the sheet loop and sheet `WO2` is still
processed.  This refutes the claim that exhausted login verification is
fatal for the whole run. -/
theorem C3_counterexample_failed_verification_run_continues :
    verify_login_success badObs badObs = false
    ∧ perform_login badAttempt badAttempt badAttempt = LoginOutcome.fellThrough
    ∧ run_automation_after_login (perform_login badAttempt badAttempt badAttempt)
        canonical [jobOk]
        = runBatch canonical [jobOk]
    ∧ RunEvent.searchWO "WO2" ∈
        run_automation_after_login (perform_login badAttempt badAttempt badAttempt)
          canonical [jobOk] := by
  decide

/-- C3 corrected: a login failure aborts the whole run only when a visible
error message is found at the base URL during one of the attempts (the
exception of line 894 propagates to the top-level handler and no sheet is
processed); when verification merely fails on all three attempts without
such a message, `perform_login` returns without signalling and the batch
is processed anyway. -/
theorem C3_amended_only_visible_error_aborts_run (a1 a2 a3 : LoginAttemptObs)
    (steps : List String) (jobs : List SheetJob) :
    (∀ msg, perform_login a1 a2 a3 = LoginOutcome.raised msg →
      run_automation_after_login (perform_login a1 a2 a3) steps jobs
        = [RunEvent.runError])
    ∧ (perform_login a1 a2 a3 = LoginOutcome.fellThrough →
      run_automation_after_login (perform_login a1 a2 a3) steps jobs
        = runBatch steps jobs) := by
  constructor
  · intro msg h
    rw [h]
    rfl
  · intro h
    rw [h]
    rfl

/-- Witness for the corrected C3 theorem: a concrete run whose login page
shows an error message is aborted before any sheet. -/
theorem C3_amended_only_visible_error_aborts_run_witness :
    run_automation_after_login (perform_login errAttempt errAttempt errAttempt)
      canonical [jobOk] = [RunEvent.runError] :=
  (C3_amended_only_visible_error_aborts_run errAttempt errAttempt errAttempt
    canonical [jobOk]).1 "Login failed" (by decide)

/-- C6: the bill name is
`{description}-{workOrderNumber}-M{monthAbbrev}{yearShort}`, where the
description is the live one unless blank or a placeholder (`To be stored`
or its Arabic equivalent), then the originally-ingested Excel description,
then `WO-{workOrderNumber}`; with both descriptions absent, work order
1001 in January of year 25 yields `WO-1001-1001-MJAN25`. -/
theorem C6_bill_name_computation :
    (∀ (d : String) (excel : Option String) (wo y : String) (m : Fin 12),
      pyStrip d ≠ "" → descriptionIsPlaceholder d = false →
      bill_name (some d) excel wo m y
        = d ++ "-" ++ wo ++ "-M" ++ monthAbbrevUpper m ++ y)
    ∧ (∀ (d e wo y : String) (m : Fin 12),
      (pyStrip d = "" ∨ descriptionIsPlaceholder d = true) → e ≠ "" →
      bill_name (some d) (some e) wo m y
        = e ++ "-" ++ wo ++ "-M" ++ monthAbbrevUpper m ++ y)
    ∧ (∀ (wo y : String) (m : Fin 12),
      bill_name none none wo m y
        = "WO-" ++ wo ++ "-" ++ wo ++ "-M" ++ monthAbbrevUpper m ++ y)
    ∧ monthAbbrevUpper 0 = "JAN"
    ∧ bill_name none none "1001" 0 "25" = "WO-1001-1001-MJAN25" := by
  refine ⟨?_, ?_, fun wo y m => rfl, rfl, rfl⟩
  · intro d excel wo y m h1 h2
    have h1b : (pyStrip d == "") = false := by simpa using h1
    simp [bill_name, description_for_bill, h1b, h2]
  · intro d e wo y m h1 h2
    have hcond : (pyStrip d == "" || descriptionIsPlaceholder d) = true := by
      rcases h1 with h | h <;> simp [h]
    have h2b : (e == "") = false := by simpa using h2
    simp [bill_name, description_for_bill, hcond, h2b]

/-- Witness for the C6 theorem: a placeholder live description falls back
to the ingested Excel description. -/
theorem C6_bill_name_computation_witness :
    bill_name (some "To be stored") (some "Valve Svc") "1001" 0 "25"
      = "Valve Svc-1001-MJAN25" :=
  (C6_bill_name_computation.2.1 "To be stored" "Valve Svc" "1001" "25" 0
    (Or.inr (by decide)) (by decide)).trans rfl

/-- C9 (code bug): a pause request never reaches the worker.
`run_automation` constructs the worker with the constant `paused=False`
(line 2299) and nothing ever assigns `self.paused`, while the operator's
pause toggle only flips `st.session_state["paused"]`, which the worker
never reads — so even with the operator's pause flag set before every
line, the AddServices iteration halts nowhere and processes every line,
and the trace is identical for every pause schedule. -/
theorem C9_pause_request_never_reaches_worker :
    addServicesPauseTrace (fun _ => true) 2
      = [PauseEvent.processedLine 0, PauseEvent.processedLine 1]
    ∧ ∀ (uiPause : Nat → Bool) (n : Nat),
        addServicesPauseTrace uiPause n
          = addServicesPauseTrace (fun _ => false) n :=
  ⟨rfl, fun _ _ => rfl⟩

/-- C10: the checkpoint writes the job's `bill_status` into B5 when it is
set and non-empty, and the literal `CREATED` otherwise; for a bill status
ingested from the sheet (stripped string or `None`), the written value is
never blank — it is either `CREATED` or the non-blank stripped status. -/
theorem C10_checkpoint_B5_default_created :
    (∀ s : String, s ≠ "" → update_excel_file_B5 (some s) = s)
    ∧ update_excel_file_B5 none = "CREATED"
    ∧ update_excel_file_B5 (some "") = "CREATED"
    ∧ (∀ cell : Option String,
        update_excel_file_B5 (ingest_bill_status cell) = "CREATED"
        ∨ ∃ s, cell = some s ∧ pyStrip s ≠ ""
            ∧ update_excel_file_B5 (ingest_bill_status cell) = pyStrip s) := by
  refine ⟨?_, rfl, rfl, ?_⟩
  · intro s h
    simp [update_excel_file_B5, h]
  · intro cell
    match cell with
    | none => exact Or.inl rfl
    | some s =>
      by_cases h : pyStrip s = ""
      · exact Or.inl (by simp [ingest_bill_status, update_excel_file_B5, h])
      · exact Or.inr ⟨s, rfl, h,
          by simp [ingest_bill_status, update_excel_file_B5, h]⟩

/-- Witness for the C10 theorem: a set, non-empty bill status is written
through to B5 unchanged. -/
theorem C10_checkpoint_B5_default_created_witness :
    update_excel_file_B5 (some "APPROVED") = "APPROVED" :=
  C10_checkpoint_B5_default_created.1 "APPROVED" (by decide)

/-- Helper: the skip branch of the per-row loop leaves the state
unchanged. -/
theorem processServiceRow_skip (m : List (String × String)) (st : SvcPriceState)
    (r : PriceRow) (h : r.serviceCode ∈ st.processed) :
    processServiceRow m st r = st := by
  unfold processServiceRow
  rw [if_pos]
  simp [h]

/-- Helper: processing a row never removes a code from the processed
set. -/
theorem processed_mono_processServiceRow (m : List (String × String))
    (st : SvcPriceState) (r : PriceRow) (c : String) (h : c ∈ st.processed) :
    c ∈ (processServiceRow m st r).processed := by
  unfold processServiceRow
  by_cases hif : (r.serviceCode == "" || st.processed.contains r.serviceCode) = true
  · rw [if_pos hif]
    exact h
  · rw [if_neg hif]
    split <;> simp [h]

/-- Helper: processing a row keeps every already-recorded write. -/
theorem writes_mono_processServiceRow (m : List (String × String))
    (st : SvcPriceState) (r : PriceRow) (w : PriceWriteEv) (h : w ∈ st.writes) :
    w ∈ (processServiceRow m st r).writes := by
  unfold processServiceRow
  by_cases hif : (r.serviceCode == "" || st.processed.contains r.serviceCode) = true
  · rw [if_pos hif]
    exact h
  · rw [if_neg hif]
    split <;> simp [h]

/-- Helper: a row with a non-empty code is in the processed set after its
iteration, whether it was written now or skipped as already processed. -/
theorem processed_after_processServiceRow (m : List (String × String))
    (st : SvcPriceState) (r : PriceRow) (hc : r.serviceCode ≠ "") :
    r.serviceCode ∈ (processServiceRow m st r).processed := by
  unfold processServiceRow
  by_cases hif : (r.serviceCode == "" || st.processed.contains r.serviceCode) = true
  · rw [if_pos hif]
    rcases Bool.or_eq_true_iff.mp hif with h | h
    · exact absurd (by simpa using h) hc
    · simpa using h
  · rw [if_neg hif]
    split <;> simp

/-- Helper: the invariant survives appending one fresh, well-formed
write. -/
theorem priceInv_extend (m : List (String × String)) (st : SvcPriceState)
    (w0 : PriceWriteEv) (fs : List (String × String)) (h : PriceInv m st)
    (hg : GoodWrite m w0) (hnew : w0.serviceCode ∉ st.processed) :
    PriceInv m ⟨st.processed ++ [w0.serviceCode], st.writes ++ [w0], fs⟩ := by
  obtain ⟨hGood, hCover, hNodup, hIn⟩ := h
  have hnotw : ∀ w ∈ st.writes, w.serviceCode ≠ w0.serviceCode :=
    fun w hw he => hnew (he ▸ hIn w hw)
  refine ⟨?_, ?_, ?_, ?_⟩
  · intro w hw
    rcases List.mem_append.mp hw with h2 | h2
    · exact hGood w h2
    · rw [List.mem_singleton.mp h2]
      exact hg
  · intro c hc2
    rcases List.mem_append.mp hc2 with h2 | h2
    · obtain ⟨w, hw, he⟩ := hCover c h2
      exact ⟨w, List.mem_append_left _ hw, he⟩
    · exact ⟨w0, List.mem_append_right _ (List.mem_singleton_self _),
        (List.mem_singleton.mp h2).symm⟩
  · rw [List.map_append, List.nodup_append]
    refine ⟨hNodup, by simp, ?_⟩
    intro c hc2 hc3
    simp at hc3
    obtain ⟨w, hw, he⟩ := List.mem_map.mp hc2
    exact hnotw w hw (by rw [he, hc3])
  · intro w hw
    rcases List.mem_append.mp hw with h2 | h2
    · exact List.mem_append_left _ (hIn w h2)
    · rw [List.mem_singleton.mp h2]
      exact List.mem_append_right _ (List.mem_singleton_self _)

/-- Helper: the loop invariant is preserved by one row iteration. -/
theorem priceInv_processServiceRow (m : List (String × String))
    (st : SvcPriceState) (r : PriceRow) (h : PriceInv m st) :
    PriceInv m (processServiceRow m st r) := by
  unfold processServiceRow
  by_cases hif : (r.serviceCode == "" || st.processed.contains r.serviceCode) = true
  · rw [if_pos hif]
    exact h
  · have hnew : r.serviceCode ∉ st.processed := by
      intro hmem
      exact hif (by simp [hmem])
    rw [if_neg hif]
    split
    · rename_i v hl
      exact priceInv_extend m st ⟨r.serviceCode, r.inputId, v, mappedWriteEvents, true⟩
        (assocSet st.fields r.inputId v) h (by simp [GoodWrite, hl]) hnew
    · rename_i hl
      exact priceInv_extend m st ⟨r.serviceCode, r.inputId, "0.00", zeroWriteEvents, false⟩
        (assocSet st.fields r.inputId "0.00") h (by simp [GoodWrite, hl]) hnew

/-- Helper: the invariant is preserved by a whole page of rows. -/
theorem priceInv_foldl (m : List (String × String)) (rows : List PriceRow) :
    ∀ st : SvcPriceState, PriceInv m st →
      PriceInv m (rows.foldl (processServiceRow m) st) := by
  induction rows with
  | nil => exact fun st h => h
  | cons r rs ih =>
    intro st h
    exact ih _ (priceInv_processServiceRow m st r h)

/-- Helper: the processed set only grows over a page of rows. -/
theorem processed_mono_foldl (m : List (String × String)) (rows : List PriceRow) :
    ∀ (st : SvcPriceState) (c : String), c ∈ st.processed →
      c ∈ (rows.foldl (processServiceRow m) st).processed := by
  induction rows with
  | nil => exact fun st c h => h
  | cons r rs ih =>
    intro st c h
    exact ih _ c (processed_mono_processServiceRow m st r c h)

/-- Helper: a row of a page ends up in the processed set after the page is
folded. -/
theorem row_processed_foldl (m : List (String × String)) (rows : List PriceRow) :
    ∀ (st : SvcPriceState) (r : PriceRow), r ∈ rows → r.serviceCode ≠ "" →
      r.serviceCode ∈ (rows.foldl (processServiceRow m) st).processed := by
  induction rows with
  | nil => intro st r h; simp at h
  | cons r0 rs ih =>
    intro st r h hc
    rcases List.mem_cons.mp h with h2 | h2
    · subst h2
      exact processed_mono_foldl m rs _ _ (processed_after_processServiceRow m st r hc)
    · exact ih _ r h2 hc

/-- Helper: the invariant is preserved by the pagination loop. -/
theorem priceInv_enter (m : List (String × String)) (pages : List (List PriceRow)) :
    ∀ st : SvcPriceState, PriceInv m st →
      PriceInv m (enter_services_prices m pages st) := by
  induction pages with
  | nil => exact fun st h => h
  | cons rows more ih =>
    intro st h
    unfold enter_services_prices
    by_cases he : rows.isEmpty = true
    · rw [if_pos he]
      exact h
    · rw [if_neg he]
      exact ih _ (priceInv_foldl m rows st h)

/-- Helper: the processed set only grows over the pagination loop. -/
theorem processed_mono_enter (m : List (String × String)) (pages : List (List PriceRow)) :
    ∀ (st : SvcPriceState) (c : String), c ∈ st.processed →
      c ∈ (enter_services_prices m pages st).processed := by
  induction pages with
  | nil => exact fun st c h => h
  | cons rows more ih =>
    intro st c h
    unfold enter_services_prices
    by_cases he : rows.isEmpty = true
    · rw [if_pos he]
      exact h
    · rw [if_neg he]
      exact ih _ c (processed_mono_foldl m rows st c h)

/-- Helper: every row of a visited page (no page being empty) ends up in
the processed set of the final state. -/
theorem row_processed_enter (m : List (String × String)) (pages : List (List PriceRow)) :
    ∀ st : SvcPriceState, (∀ p ∈ pages, p ≠ []) →
      ∀ r : PriceRow, (∃ p ∈ pages, r ∈ p) → r.serviceCode ≠ "" →
        r.serviceCode ∈ (enter_services_prices m pages st).processed := by
  induction pages with
  | nil =>
    intro st hp r hr
    simp at hr
  | cons rows more ih =>
    intro st hp r hr hc
    have hne : rows ≠ [] := hp rows (by simp)
    have he : rows.isEmpty = false := by
      simpa [List.isEmpty_iff] using hne
    unfold enter_services_prices
    rw [he]
    simp only [Bool.false_eq_true, if_false]
    rcases hr with ⟨p, hpmem, hrmem⟩
    rcases List.mem_cons.mp hpmem with h2 | h2
    · subst h2
      exact processed_mono_enter m more _ _ (row_processed_foldl m p st r hrmem hc)
    · exact ih _ (fun q hq => hp q (List.mem_cons_of_mem _ hq)) r ⟨p, h2, hrmem⟩ hc

/-- C7: for every service row extracted from a visited results page, the
final state of `enter_services_prices` contains a write for that row's
item code, and the write is exactly what the source prescribes: a code in
the Excel map got the mapped price via the scripted sequence dispatching
change, blur, input and keyup, verified by re-reading the field; a code
absent from the map got the forced `0.00` write dispatching change, input
and blur (never left as-is). -/
theorem C7_every_row_written_mapped_or_zeroed (m : List (String × String))
    (pages : List (List PriceRow)) (r : PriceRow)
    (hpages : ∀ p ∈ pages, p ≠ []) (hr : ∃ p ∈ pages, r ∈ p)
    (hc : r.serviceCode ≠ "") :
    ∃ w ∈ (enter_services_prices m pages initPriceState).writes,
      w.serviceCode = r.serviceCode ∧ GoodWrite m w := by
  have hinit : PriceInv m initPriceState := by
    refine ⟨?_, ?_, ?_, ?_⟩ <;> simp [initPriceState]
  have hinv := priceInv_enter m pages initPriceState hinit
  have hmem := row_processed_enter m pages initPriceState hpages r hr hc
  obtain ⟨w, hw, he⟩ := hinv.2.1 r.serviceCode hmem
  exact ⟨w, hw, he, hinv.1 w hw⟩

/-- Witness for the C7 theorem on a concrete one-page run with one mapped
and one unmapped row. -/
theorem C7_every_row_written_mapped_or_zeroed_witness :
    (∀ p ∈ pricePages0, p ≠ []) ∧ (∃ p ∈ pricePages0, priceRow2 ∈ p)
    ∧ priceRow2.serviceCode ≠ ""
    ∧ ∃ w ∈ (enter_services_prices priceMap0 pricePages0 initPriceState).writes,
        w.serviceCode = priceRow2.serviceCode ∧ GoodWrite priceMap0 w :=
  ⟨by decide, ⟨[priceRow1, priceRow2], by decide, by decide⟩, by decide,
    C7_every_row_written_mapped_or_zeroed priceMap0 pricePages0 priceRow2
      (by decide) ⟨[priceRow1, priceRow2], by decide, by decide⟩ (by decide)⟩

/-- C8: within one invocation of `enter_services_prices` each item code is
written at most once — the recorded write codes are pairwise distinct
across all visited pages — and a row whose code is already in the running
processed set is skipped without any state change. -/
theorem C8_each_code_written_at_most_once (m : List (String × String))
    (pages : List (List PriceRow)) :
    ((enter_services_prices m pages initPriceState).writes.map
        (fun w => w.serviceCode)).Nodup
    ∧ ∀ (st : SvcPriceState) (r : PriceRow), r.serviceCode ∈ st.processed →
        processServiceRow m st r = st := by
  constructor
  · have hinit : PriceInv m initPriceState := by
      refine ⟨?_, ?_, ?_, ?_⟩ <;> simp [initPriceState]
    exact (priceInv_enter m pages initPriceState hinit).2.2.1
  · exact fun st r h => processServiceRow_skip m st r h

/-- Witness for the C8 theorem: a row whose code was already processed on
an earlier page leaves the state untouched. -/
theorem C8_each_code_written_at_most_once_witness :
    priceRow1.serviceCode ∈ dupState.processed
    ∧ processServiceRow priceMap0 dupState priceRow1 = dupState :=
  ⟨by decide,
    (C8_each_code_written_at_most_once priceMap0 []).2 dupState priceRow1 (by decide)⟩

end Maximo
